import Mathlib

/-!
Shallow embedding of the TPMB2 offline licensing core
(`src/utils/licensing.py`) and the multi-tenant bot registry
(`src/utils/bots_registry.py`), together with theorems settling the
spec claims about them.

Python strings are embedded as `List Char` (ASCII semantics for
`upper`/`strip`, which is the alphabet of every key and identifier the
licensing core handles); bytes are `List Nat` with every element `< 256`;
machine words are `Nat` reduced modulo `2 ^ 32` where the algorithms
require it.  SHA-256 and HMAC-SHA256 are implemented in full so that the
checksums of `licensing.py` compute inside Lean.
-/

set_option maxRecDepth 100000

/-- Python `str` embedded as a list of characters. -/
abbrev Str := List Char

/-- Shorthand to turn a Lean string literal into the `Str` embedding. -/
def str (s : String) : Str := s.data

/-! ## Byte-level helpers and UTF-8 (Python `str.encode()`) -/

/-- UTF-8 encoding of a single character (as byte values). -/
def utf8Char (c : Char) : List Nat :=
  let n := c.toNat
  if n < 128 then [n]
  else if n < 2048 then [192 + n / 64, 128 + n % 64]
  else if n < 65536 then [224 + n / 4096, 128 + n / 64 % 64, 128 + n % 64]
  else [240 + n / 262144, 128 + n / 4096 % 64, 128 + n / 64 % 64, 128 + n % 64]

/-- UTF-8 encoding of a string, i.e. Python `s.encode()`. -/
def utf8 (s : Str) : List Nat := s.flatMap utf8Char

/-! ## SHA-256 over `Nat` words (each word kept `< 2 ^ 32`) -/

/-- Addition modulo `2 ^ 32`. -/
def add32 (a b : Nat) : Nat := (a + b) % 4294967296

/-- Bitwise complement on 32-bit words. -/
def not32 (a : Nat) : Nat := 4294967295 - a

/-- Right rotation of a 32-bit word by `k` places. -/
def rotr32 (a k : Nat) : Nat := a / 2 ^ k + a % 2 ^ k * 2 ^ (32 - k)

/-- Logical right shift. -/
def shr32 (a k : Nat) : Nat := a / 2 ^ k

/-- SHA-256 `Ch` function. -/
def chFn (e f g : Nat) : Nat := Nat.xor (Nat.land e f) (Nat.land (not32 e) g)

/-- SHA-256 `Maj` function. -/
def majFn (a b c : Nat) : Nat :=
  Nat.xor (Nat.land a b) (Nat.xor (Nat.land a c) (Nat.land b c))

/-- SHA-256 big sigma-0. -/
def bigS0 (x : Nat) : Nat := Nat.xor (rotr32 x 2) (Nat.xor (rotr32 x 13) (rotr32 x 22))

/-- SHA-256 big sigma-1. -/
def bigS1 (x : Nat) : Nat := Nat.xor (rotr32 x 6) (Nat.xor (rotr32 x 11) (rotr32 x 25))

/-- SHA-256 small sigma-0. -/
def smallS0 (x : Nat) : Nat := Nat.xor (rotr32 x 7) (Nat.xor (rotr32 x 18) (shr32 x 3))

/-- SHA-256 small sigma-1. -/
def smallS1 (x : Nat) : Nat := Nat.xor (rotr32 x 17) (Nat.xor (rotr32 x 19) (shr32 x 10))

/-- The 64 SHA-256 round constants (FIPS 180-4), written in decimal. -/
def shaK : List Nat :=
  [1116352408, 1899447441, 3049323471, 3921009573, 961987163,
   1508970993, 2453635748, 2870763221, 3624381080, 310598401,
   607225278, 1426881987, 1925078388, 2162078206, 2614888103,
   3248222580, 3835390401, 4022224774, 264347078, 604807628,
   770255983, 1249150122, 1555081692, 1996064986, 2554220882,
   2821834349, 2952996808, 3210313671, 3336571891, 3584528711,
   113926993, 338241895, 666307205, 773529912, 1294757372,
   1396182291, 1695183700, 1986661051, 2177026350, 2456956037,
   2730485921, 2820302411, 3259730800, 3345764771, 3516065817,
   3600352804, 4094571909, 275423344, 430227734, 506948616,
   659060556, 883997877, 958139571, 1322822218, 1537002063,
   1747873779, 1955562222, 2024104815, 2227730452, 2361852424,
   2428436474, 2756734187, 3204031479, 3329325298]

/-- The SHA-256 initial hash state (FIPS 180-4), written in decimal. -/
def shaH0 : List Nat :=
  [1779033703, 3144134277, 1013904242, 2773480762,
   1359893119, 2600822924, 528734635, 1541459225]

/-- Big-endian 8-byte encoding of a natural number (for the length pad). -/
def be8 (n : Nat) : List Nat :=
  [n / 2 ^ 56 % 256, n / 2 ^ 48 % 256, n / 2 ^ 40 % 256, n / 2 ^ 32 % 256,
   n / 2 ^ 24 % 256, n / 2 ^ 16 % 256, n / 2 ^ 8 % 256, n % 256]

/-- SHA-256 message padding: `msg ++ 0x80 ++ zeros ++ 64-bit length`. -/
def shaPad (msg : List Nat) : List Nat :=
  msg ++ 128 :: List.replicate ((119 - msg.length % 64) % 64) 0 ++ be8 (msg.length * 8)

/-- Group a padded byte string into big-endian 32-bit words. -/
def bytesToWords : List Nat → List Nat
  | b0 :: b1 :: b2 :: b3 :: rest =>
      (b0 * 16777216 + b1 * 65536 + b2 * 256 + b3) :: bytesToWords rest
  | _ => []

/-- Group a word string into 16-word blocks. -/
def wordsToBlocks : List Nat → List (List Nat)
  | w0 :: w1 :: w2 :: w3 :: w4 :: w5 :: w6 :: w7 ::
    w8 :: w9 :: w10 :: w11 :: w12 :: w13 :: w14 :: w15 :: rest =>
      [w0, w1, w2, w3, w4, w5, w6, w7, w8, w9, w10, w11, w12, w13, w14, w15]
        :: wordsToBlocks rest
  | _ => []

/-- One step of message-schedule extension, on the reversed schedule. -/
def schedStep (rws : List Nat) : Nat :=
  add32 (smallS1 (rws.getD 1 0))
    (add32 (rws.getD 6 0) (add32 (smallS0 (rws.getD 14 0)) (rws.getD 15 0)))

/-- Extend the (reversed) message schedule by `n` words. -/
def schedExt : Nat → List Nat → List Nat
  | 0, rws => rws
  | n + 1, rws => schedExt n (schedStep rws :: rws)

/-- The full 64-word message schedule of a 16-word block. -/
def schedule (block : List Nat) : List Nat :=
  (schedExt 48 block.reverse).reverse

/-- Working state of the SHA-256 compression function. -/
structure ShaState where
  a : Nat
  b : Nat
  c : Nat
  d : Nat
  e : Nat
  f : Nat
  g : Nat
  h : Nat
  deriving DecidableEq

/-- One SHA-256 round with round constant plus schedule word `kw`. -/
def shaRound (st : ShaState) (kw : Nat) : ShaState :=
  let t1 := add32 st.h (add32 (bigS1 st.e) (add32 (chFn st.e st.f st.g) kw))
  let t2 := add32 (bigS0 st.a) (majFn st.a st.b st.c)
  ⟨add32 t1 t2, st.a, st.b, st.c, add32 st.d t1, st.e, st.f, st.g⟩

/-- Compress one 16-word block into the running 8-word hash value. -/
def shaCompress (hv : List Nat) (block : List Nat) : List Nat :=
  let ks := (shaK.zip (schedule block)).map fun p => add32 p.1 p.2
  let st0 : ShaState :=
    ⟨hv.getD 0 0, hv.getD 1 0, hv.getD 2 0, hv.getD 3 0,
     hv.getD 4 0, hv.getD 5 0, hv.getD 6 0, hv.getD 7 0⟩
  let st := ks.foldl shaRound st0
  [add32 (hv.getD 0 0) st.a, add32 (hv.getD 1 0) st.b,
   add32 (hv.getD 2 0) st.c, add32 (hv.getD 3 0) st.d,
   add32 (hv.getD 4 0) st.e, add32 (hv.getD 5 0) st.f,
   add32 (hv.getD 6 0) st.g, add32 (hv.getD 7 0) st.h]

/-- Split a 32-bit word into its four big-endian bytes. -/
def wordBytes (w : Nat) : List Nat :=
  [w / 16777216 % 256, w / 65536 % 256, w / 256 % 256, w % 256]

/-- SHA-256 of a byte string, as 32 bytes (Python `sha256(b).digest()`). -/
def sha256Bytes (msg : List Nat) : List Nat :=
  ((wordsToBlocks (bytesToWords (shaPad msg))).foldl shaCompress shaH0).flatMap wordBytes

/-- Lowercase hex digit for a value `< 16`. -/
def hexChar (n : Nat) : Char :=
  if n < 10 then Char.ofNat (48 + n) else Char.ofNat (87 + n)

/-- Lowercase hex rendering of a byte string (Python `.hexdigest()`). -/
def bytesToHex (bs : List Nat) : Str :=
  bs.flatMap fun b => [hexChar (b / 16 % 16), hexChar (b % 16)]

/-- Python `hashlib.sha256(b).hexdigest()`: lowercase hex digest. -/
def sha256Hex (msg : List Nat) : Str := bytesToHex (sha256Bytes msg)

/-! ## HMAC-SHA256 (Python `hmac.new(key, msg, hashlib.sha256)`) -/

/-- HMAC-SHA256 digest as 32 raw bytes. -/
def hmacSha256 (key msg : List Nat) : List Nat :=
  let k0 := if key.length > 64 then sha256Bytes key else key
  let kp := k0 ++ List.replicate (64 - k0.length) 0
  let ipad := kp.map (Nat.xor 54)
  let opad := kp.map (Nat.xor 92)
  sha256Bytes (opad ++ sha256Bytes (ipad ++ msg))

/-- HMAC-SHA256 lowercase hex digest. -/
def hmacSha256Hex (key msg : List Nat) : Str := bytesToHex (hmacSha256 key msg)

example : sha256Hex (utf8 (str "abc")) =
    str "ba7816bf8f01cfea414140de5dae2223b00361a396177a9cb410ff61f20015ad" := by
  decide

/-! ## Calendar dates and UTC instants (`datetime`) -/

/-- A Gregorian calendar date (`datetime.date` semantics). -/
structure Date where
  y : Nat
  m : Nat
  d : Nat
  deriving DecidableEq

/-- Gregorian leap-year rule. -/
def isLeapYear (y : Nat) : Bool := (y % 4 == 0 && y % 100 != 0) || y % 400 == 0

/-- Number of days in a month. -/
def daysInMonth (y m : Nat) : Nat :=
  if m = 2 then (if isLeapYear y then 29 else 28)
  else if m = 4 || m = 6 || m = 9 || m = 11 then 30
  else 31

/-- The day after a given date. -/
def nextDay (dt : Date) : Date :=
  if dt.d < daysInMonth dt.y dt.m then ⟨dt.y, dt.m, dt.d + 1⟩
  else if dt.m < 12 then ⟨dt.y, dt.m + 1, 1⟩
  else ⟨dt.y + 1, 1, 1⟩

/-- Add `n` days to a date (`date + timedelta(days=n)`). -/
def addDays : Date → Nat → Date
  | dt, 0 => dt
  | dt, n + 1 => addDays (nextDay dt) n

/-- Decimal digit character. -/
def digitChar (n : Nat) : Char := Char.ofNat (48 + n % 10)

/-- Two-digit zero-padded decimal rendering (for values below 100). -/
def two2 (n : Nat) : Str := [digitChar (n / 10 % 10), digitChar (n % 10)]

/-- Python `dt.strftime('%y%m%d')`. -/
def strftimeYYMMDD (dt : Date) : Str := two2 (dt.y % 100) ++ two2 dt.m ++ two2 dt.d

/-- A UTC instant: a date plus an opaque time-of-day measure
(`0` denotes midnight; only equality with and order against midnight
matter to the licensing core). -/
structure Instant where
  date : Date
  tod : Nat
  deriving DecidableEq

/-- Strict order on dates (year, month, day lexicographic). -/
def dateLt (a b : Date) : Bool :=
  a.y < b.y || (a.y == b.y && (a.m < b.m || (a.m == b.m && a.d < b.d)))

/-- Python `datetime` strict comparison `a > b`. -/
def instantGt (a b : Instant) : Bool :=
  dateLt b.date a.date || (b.date == a.date && b.tod < a.tod)

/-! ## `datetime.strptime(s, '%y%m%d')`

CPython compiles the format to the anchored regex
`(?P<y>\d\d)(?P<m>1[0-2]|0[1-9]|[1-9])(?P<d>3[0-1]|[1-2]\d|0[1-9]|[1-9]| [1-9])`,
takes the first match under ordered-alternation backtracking, raises when
the match does not consume the whole string, maps two-digit years `00-68`
to `2000+yy` and `69-99` to `1900+yy`, and finally the `datetime`
constructor rejects days beyond the month length.  Digits are modelled as
ASCII `0-9`. -/

/-- Ordered choice on `Option` (regex alternation). -/
def orO {α : Type} (a b : Option α) : Option α :=
  match a with
  | some x => some x
  | none => b

/-- Decimal value of a digit character. -/
def digVal (c : Char) : Nat := c.toNat - 48

/-- Month alternative `1[0-2]`. -/
def mAlt1 : Str → Option (Nat × Str)
  | '1' :: x :: r => if x = '0' || x = '1' || x = '2' then some (10 + digVal x, r) else none
  | _ => none

/-- Month alternative `0[1-9]`. -/
def mAlt2 : Str → Option (Nat × Str)
  | '0' :: x :: r => if '1' ≤ x && x ≤ '9' then some (digVal x, r) else none
  | _ => none

/-- Month alternative `[1-9]`. -/
def mAlt3 : Str → Option (Nat × Str)
  | x :: r => if '1' ≤ x && x ≤ '9' then some (digVal x, r) else none
  | _ => none

/-- Day alternative `3[0-1]`. -/
def dAlt1 : Str → Option (Nat × Str)
  | '3' :: x :: r => if x = '0' || x = '1' then some (30 + digVal x, r) else none
  | _ => none

/-- Day alternative `[1-2]\d`. -/
def dAlt2 : Str → Option (Nat × Str)
  | x :: y :: r => if (x = '1' || x = '2') && y.isDigit then some (digVal x * 10 + digVal y, r) else none
  | _ => none

/-- Day alternative `0[1-9]`. -/
def dAlt3 : Str → Option (Nat × Str)
  | '0' :: x :: r => if '1' ≤ x && x ≤ '9' then some (digVal x, r) else none
  | _ => none

/-- Day alternative `[1-9]`. -/
def dAlt4 : Str → Option (Nat × Str)
  | x :: r => if '1' ≤ x && x ≤ '9' then some (digVal x, r) else none
  | _ => none

/-- Day alternative `\x20[1-9]` (a space followed by a digit). -/
def dAlt5 : Str → Option (Nat × Str)
  | ' ' :: x :: r => if '1' ≤ x && x ≤ '9' then some (digVal x, r) else none
  | _ => none

/-- First matching day alternative, in regex order. -/
def dayMatch (s : Str) : Option (Nat × Str) :=
  orO (dAlt1 s) (orO (dAlt2 s) (orO (dAlt3 s) (orO (dAlt4 s) (dAlt5 s))))

/-- Continue a successful month alternative with the day group; the regex
backtracks to the next month alternative only when no day alternative
matches at all. -/
def monthThenDay (mres : Option (Nat × Str)) : Option (Nat × Nat × Str) :=
  match mres with
  | some (m, r) => (dayMatch r).map fun p => (m, p.1, p.2)
  | none => none

/-- Month-then-day matching with ordered backtracking. -/
def matchMD (s : Str) : Option (Nat × Nat × Str) :=
  orO (monthThenDay (mAlt1 s)) (orO (monthThenDay (mAlt2 s)) (monthThenDay (mAlt3 s)))

/-- `datetime.strptime(s, '%y%m%d')`, as `none` on any `ValueError`
(regex mismatch, unconverted trailing data, or an invalid calendar day). -/
def parseExpiry (s : Str) : Option Date :=
  match s with
  | c1 :: c2 :: rest =>
      if c1.isDigit && c2.isDigit then
        match matchMD rest with
        | some (m, d, residue) =>
            if residue.isEmpty then
              let yy := digVal c1 * 10 + digVal c2
              let y := if yy ≤ 68 then 2000 + yy else 1900 + yy
              if 1 ≤ m && m ≤ 12 && 1 ≤ d && d ≤ daysInMonth y m then some ⟨y, m, d⟩
              else none
            else none
        | none => none
      else none
  | _ => none

/-! ## String helpers used by `licensing.py` -/

/-- ASCII uppercasing, Python `str.upper()` on the key alphabet. -/
def pyUpper (s : Str) : Str := s.map Char.toUpper

/-- Python `str.strip()` whitespace class, restricted to ASCII: exactly
the code points below 128 for which `str.isspace()` holds (9-13, 28-32). -/
def isPySpace (c : Char) : Bool :=
  c = ' ' || c = '\t' || c = '\n' || c = '\x0d' || c = '\x0b' || c = '\x0c'
    || c = '\x1c' || c = '\x1d' || c = '\x1e' || c = '\x1f'

/-- Python `str.strip()`. -/
def pyStrip (s : Str) : Str :=
  ((s.dropWhile isPySpace).reverse.dropWhile isPySpace).reverse

/-- Python `str.replace(' ', '')`: drop every space character. -/
def removeSpaces (s : Str) : Str := s.filter fun c => !(c = ' ')

/-- `LicenseManager._normalize_key`: `key.strip().upper().replace(' ', '')`
(the trailing `.replace('-', '-')` in the source is the identity). -/
def normalizeKey (k : Str) : Str := removeSpaces (pyUpper (pyStrip k))

/-- Python `s.split(sep)` for a one-character separator. -/
def splitChar (sep : Char) : Str → List Str
  | [] => [[]]
  | c :: rest =>
      if c = sep then [] :: splitChar sep rest
      else
        match splitChar sep rest with
        | r :: rs => (c :: r) :: rs
        | [] => [[c]]

/-! ## The licensing core (`LicenseManager`) -/

/-- Decoded key fields, the result of `LicenseManager.parse_key`. -/
structure ParsedKey where
  tokenHash : Str
  expiry : Str
  hw : Str
  csum : Str
  deriving DecidableEq

/-- The structured verdict returned by `LicenseManager.validate_key`. -/
structure LicStatus where
  valid : Bool
  reason : Option Str
  expires : Str
  deriving DecidableEq

/-- The fallback signing secret, `sha256(b'TPMB2_DEFAULT_SECRET').digest()`
(the branch of `_get_default_secret` taken when no `config/.key` exists). -/
def defaultSecret : List Nat := sha256Bytes (utf8 (str "TPMB2_DEFAULT_SECRET"))

/-- `LicenseManager._checksum`: first 4 hex chars of
`HMAC-SHA256(secret, payload)`, uppercased. -/
def checksum4 (secret : List Nat) (payload : Str) : Str :=
  pyUpper ((hmacSha256Hex secret (utf8 payload)).take 4)

/-- Python `hwid or 'GENERIC'` (both `None` and the empty string are falsy). -/
def pyOrGeneric (hwid : Option Str) : Str :=
  match hwid with
  | none => str "GENERIC"
  | some s => if s.isEmpty then str "GENERIC" else s

/-- The 8-char identity hash: `sha256(bot_token).hexdigest()[:8]`
(lowercase, as produced by `hexdigest`). -/
def tokenHash8 (botToken : Str) : Str := (sha256Hex (utf8 botToken)).take 8

/-- `LicenseManager.generate_key`.  The ambient `datetime.utcnow()` date is
passed explicitly as `today` (only the date part reaches the key). -/
def generateKey (secret : List Nat) (today : Date) (botToken : Str)
    (daysValid : Nat) (hwid : Option Str) : Str :=
  let tokenHash := tokenHash8 botToken
  let expiry := strftimeYYMMDD (addDays today daysValid)
  let hw := pyUpper ((pyOrGeneric hwid).take 8)
  let payload := tokenHash ++ '.' :: expiry ++ '.' :: hw
  let csum := checksum4 secret payload
  let ex := expiry ++ str "00"
  str "TPMB-" ++ tokenHash.take 4 ++ '-' :: (tokenHash.drop 4).take 4 ++
    '-' :: ex.take 4 ++ '-' :: (ex.drop 4).take 4 ++
    '-' :: hw.take 4 ++ '-' :: (hw.drop 4).take 4 ++ '-' :: csum

/-- `LicenseManager.parse_key`; `Except.error` models a raised `ValueError`. -/
def parseKey (key : Str) : Except Str ParsedKey :=
  let k := normalizeKey key
  if !(List.isPrefixOf (str "TPMB-") k) then .error (str "Invalid prefix")
  else
    match splitChar '-' k with
    | [_, g1, g2, g3, g4, g5, g6, g7] =>
        .ok ⟨pyUpper (g1 ++ g2), (g3 ++ g4).take 6, pyUpper (g5 ++ g6), pyUpper g7⟩
    | _ => .error (str "Invalid groups count")

/-- Lines 79-99 of `validate_key`: the verdict computed from the already
parsed key data at UTC instant `now`. -/
def validateData (secret : List Nat) (now : Instant) (data : ParsedKey)
    (botToken : Str) (hwid : Option Str) : LicStatus :=
  let tokenHash := pyUpper (tokenHash8 botToken)
  let computedPayload :=
    tokenHash ++ '.' :: data.expiry ++ '.' :: pyUpper ((pyOrGeneric hwid).take 8)
  let expectedCsum := checksum4 secret computedPayload
  if data.csum == expectedCsum && tokenHash == data.tokenHash then
    match parseExpiry data.expiry with
    | none => ⟨false, some (str "invalid expiry"), data.expiry⟩
    | some exp =>
        if instantGt now ⟨exp, 0⟩ then ⟨false, some (str "expired"), data.expiry⟩
        else ⟨true, none, data.expiry⟩
  else ⟨false, some (str "checksum/token mismatch"), data.expiry⟩

/-- `LicenseManager.validate_key`: `parse_key` is called outside any
handler, so its `ValueError` propagates to the caller (`Except.error`). -/
def validateKey (secret : List Nat) (now : Instant) (key : Str)
    (botToken : Str) (hwid : Option Str) : Except Str LicStatus :=
  match parseKey key with
  | .error e => .error e
  | .ok data => .ok (validateData secret now data botToken hwid)

example :
    generateKey defaultSecret ⟨2025, 1, 1⟩ (str "abc123token") 30 none =
      str "TPMB-ee7f-dbd5-2501-3100-GENE-RIC-CBB5" := by decide

example :
    validateKey defaultSecret ⟨⟨2025, 1, 1⟩, 43200⟩
      (generateKey defaultSecret ⟨2025, 1, 1⟩ (str "abc123token") 30 none)
      (str "abc123token") none =
    Except.ok ⟨false, some (str "checksum/token mismatch"), str "250131"⟩ := by rfl

/-! ## The bot registry (`BotRegistry`, `src/utils/bots_registry.py`)

The registry state is the in-memory `self.registry` dict: the nullable
`active_bot` pointer and the insertion-ordered `bots` mapping (Python
dicts preserve insertion order, embedded as an association list).  Each
mutator returns its boolean result, the new state, and whether it called
`_save` (i.e. rewrote the backing file). -/

/-- Per-bot proxy settings (`_default_bot`'s `proxy_config`). -/
structure ProxyConfig where
  enabled : Bool
  ptype : Str
  host : Str
  port : Nat
  username : Str
  passwordEncrypted : Str
  deriving DecidableEq

/-- Per-bot message templates (`_default_bot`'s `message_templates`). -/
structure MessageTemplates where
  activeTemplate : Str
  templates : List (Str × Str)
  deriving DecidableEq

/-- Per-bot scheduler settings (`_default_bot`'s `settings`). -/
structure BotSettings where
  intervalMinutes : Nat
  autoStart : Bool
  autoRestart : Bool
  deriving DecidableEq

/-- One tenant record (`_default_bot` schema; `groups` entries are opaque
to this spec and embedded as raw strings). -/
structure BotRecord where
  name : Str
  tokenEncrypted : Str
  licenseKey : Option Str
  licenseStatus : Str
  createdDate : Str
  proxyConfig : ProxyConfig
  groups : List Str
  messageTemplates : MessageTemplates
  settings : BotSettings
  deriving DecidableEq

/-- `BotRegistry._default_bot`; the ambient `datetime.now()` timestamp is
passed in as `now`. -/
def defaultBot (name now : Str) : BotRecord :=
  { name := name
    tokenEncrypted := str ""
    licenseKey := none
    licenseStatus := str "inactive"
    createdDate := now
    proxyConfig := ⟨false, str "socks5", str "127.0.0.1", 1080, str "", str ""⟩
    groups := []
    messageTemplates :=
      ⟨str "default", [(str "default", str "🤖 Bot message from {bot_name}: {timestamp}")]⟩
    settings := ⟨60, false, true⟩ }

instance : Inhabited BotRecord := ⟨defaultBot [] []⟩

/-- The in-memory registry state. -/
structure Registry where
  activeBot : Option Str
  bots : List (Str × BotRecord)
  deriving DecidableEq

/-- `BotRegistry._default`: the empty registry. -/
def defaultRegistry : Registry := ⟨none, []⟩

/-- Python `bot_id in self.registry.get('bots', {})`. -/
def containsKey (bots : List (Str × BotRecord)) (id : Str) : Bool :=
  bots.any fun p => p.1 == id

/-- Result of a registry mutator: its return value, the state after the
call, and whether `_save` rewrote the backing file. -/
structure MutRes where
  result : Bool
  state : Registry
  saved : Bool
  deriving DecidableEq

/-- Python truthiness of `self.registry.get('active_bot')`
(`None` and the empty string are falsy). -/
def pyFalsyOpt (o : Option Str) : Bool :=
  match o with
  | none => true
  | some s => s.isEmpty

/-- `BotRegistry.set_active_bot`. -/
def setActiveBot (st : Registry) (id : Str) : MutRes :=
  if containsKey st.bots id then ⟨true, { st with activeBot := some id }, true⟩
  else ⟨false, st, false⟩

/-- `BotRegistry.add_bot`. -/
def addBot (st : Registry) (id name tokenEncrypted now : Str) : MutRes :=
  if containsKey st.bots id then ⟨false, st, false⟩
  else
    let r0 := defaultBot name now
    let r1 :=
      if !tokenEncrypted.isEmpty then { r0 with tokenEncrypted := tokenEncrypted } else r0
    let active1 := if pyFalsyOpt st.activeBot then some id else st.activeBot
    ⟨true, ⟨active1, st.bots ++ [(id, r1)]⟩, true⟩

/-- `del self.registry['bots'][bot_id]` on the insertion-ordered mapping. -/
def eraseKey : List (Str × BotRecord) → Str → List (Str × BotRecord)
  | [], _ => []
  | p :: rest, id => if p.1 == id then rest else p :: eraseKey rest id

/-- `BotRegistry.remove_bot`. -/
def removeBot (st : Registry) (id : Str) : MutRes :=
  if containsKey st.bots id then
    let bots1 := eraseKey st.bots id
    let active1 :=
      if st.activeBot == some id then
        match bots1 with
        | [] => none
        | p :: _ => some p.1
      else st.activeBot
    ⟨true, ⟨active1, bots1⟩, true⟩
  else ⟨false, st, false⟩

/-- Apply a field update to the record stored under `id`. -/
def mapValueAt (bots : List (Str × BotRecord)) (id : Str)
    (f : BotRecord → BotRecord) : List (Str × BotRecord) :=
  bots.map fun p => if p.1 == id then (p.1, f p.2) else p

/-- `BotRegistry.update_bot`; the `**kwargs` field assignments are
embedded as the record update `f`. -/
def updateBot (st : Registry) (id : Str) (f : BotRecord → BotRecord) : MutRes :=
  if containsKey st.bots id then ⟨true, { st with bots := mapValueAt st.bots id f }, true⟩
  else ⟨false, st, false⟩

/-- One registry mutation, for reasoning about call sequences. -/
inductive RegOp where
  | add (id name tokenEncrypted now : Str)
  | remove (id : Str)
  | setActive (id : Str)

/-- The state reached after one mutation. -/
def applyOp (st : Registry) (op : RegOp) : Registry :=
  match op with
  | .add id name tok now => (addBot st id name tok now).state
  | .remove id => (removeBot st id).state
  | .setActive id => (setActiveBot st id).state

/-- The state reached from the default registry by a call sequence. -/
def runOps (ops : List RegOp) : Registry := ops.foldl applyOp defaultRegistry

/-- `BotRegistry.list_bots`: tenant ids in insertion order. -/
def listBots (st : Registry) : List Str := st.bots.map Prod.fst

/-- The registry's active-pointer invariant: a non-null `active_bot`
names an existing tenant. -/
def activeOk (st : Registry) : Bool :=
  match st.activeBot with
  | none => true
  | some a => containsKey st.bots a

/-- Erase the first occurrence of an id from a key listing. -/
def keysErase : List Str → Str → List Str
  | [], _ => []
  | k :: rest, id => if k == id then rest else k :: keysErase rest id

/-- Whether an `Except` result is a normal return (no exception raised). -/
def exceptIsOk {ε α : Type} : Except ε α → Bool
  | .ok _ => true
  | .error _ => false

/-- A key assembled from its seven data groups, exactly the string built
by line 61 of `generate_key`. -/
def mkKey (g1 g2 g3 g4 g5 g6 g7 : Str) : Str :=
  'T' :: 'P' :: 'M' :: 'B' :: '-' ::
    (g1 ++ '-' :: (g2 ++ '-' :: (g3 ++ '-' :: (g4 ++ '-' ::
      (g5 ++ '-' :: (g6 ++ '-' :: g7))))))

/-- Replace the character at position `i` (tampering with one character). -/
def setCharAt (s : Str) (i : Nat) (c : Char) : Str :=
  s.take i ++ c :: s.drop (i + 1)

/-- Characters that survive key normalization in place: not a hyphen
(so the group structure is preserved) and not Python whitespace (so
`strip`/`replace(' ', '')` leave them alone). -/
def KeyCleanStr (s : Str) : Prop := ∀ c ∈ s, c ≠ '-' ∧ isPySpace c = false

instance (s : Str) : Decidable (KeyCleanStr s) := by
  unfold KeyCleanStr
  infer_instance

/-- Concrete two-tenant registry used to instantiate the registry
theorems. -/
def regW : Registry :=
  ⟨some (str "a"),
   [(str "a", defaultBot (str "Alpha") (str "2025-01-01 00:00:00")),
    (str "b", defaultBot (str "Beta") (str "2025-01-01 00:00:00"))]⟩

/-! ## Character-level lemmas about ASCII uppercasing -/

theorem char_toNat_ofNat {n : Nat} (h : n < 55296) : (Char.ofNat n).toNat = n := by
  have hv : n.isValidChar := Or.inl h
  rw [Char.ofNat, dif_pos hv]
  simp [Char.ofNatAux, Char.toNat, UInt32.toNat, BitVec.toNat_ofNatLt]

theorem char_eq_of_toNat_eq {a b : Char} (h : a.toNat = b.toNat) : a = b := by
  apply Char.ext
  exact UInt32.toNat.inj h

/-- `Char.toUpper` at the code-point level. -/
theorem toUpper_toNat (c : Char) :
    (Char.toUpper c).toNat =
      if 97 ≤ c.toNat ∧ c.toNat ≤ 122 then c.toNat - 32 else c.toNat := by
  unfold Char.toUpper
  split
  · next h =>
      have hlt : c.toNat - 32 < 55296 := by omega
      simp [char_toNat_ofNat hlt, h]
  · next h => simp [h]

theorem toUpper_toNat_of_lower {c : Char} (h : 97 ≤ c.toNat ∧ c.toNat ≤ 122) :
    (Char.toUpper c).toNat = c.toNat - 32 := by
  rw [toUpper_toNat, if_pos h]

theorem toUpper_eq_self_of_not_lower {c : Char}
    (h : ¬(97 ≤ c.toNat ∧ c.toNat ≤ 122)) : Char.toUpper c = c :=
  char_eq_of_toNat_eq (by rw [toUpper_toNat, if_neg h])

theorem toUpper_idem (c : Char) : Char.toUpper (Char.toUpper c) = Char.toUpper c := by
  by_cases h : 97 ≤ c.toNat ∧ c.toNat ≤ 122
  · have h1 := toUpper_toNat_of_lower h
    have h2 : ¬(97 ≤ (Char.toUpper c).toNat ∧ (Char.toUpper c).toNat ≤ 122) := by
      omega
    exact toUpper_eq_self_of_not_lower h2
  · rw [toUpper_eq_self_of_not_lower h]
    exact toUpper_eq_self_of_not_lower h

theorem toUpper_ne_of_toNat_lt {c : Char} {d : Char} (hd : d.toNat < 65)
    (h : c ≠ d) : Char.toUpper c ≠ d := by
  intro he
  by_cases hr : 97 ≤ c.toNat ∧ c.toNat ≤ 122
  · have h1 := toUpper_toNat_of_lower hr
    rw [he] at h1
    omega
  · rw [toUpper_eq_self_of_not_lower hr] at he
    exact h he

theorem isPySpace_toUpper {c : Char} (h : isPySpace c = false) :
    isPySpace (Char.toUpper c) = false := by
  by_cases hr : 97 ≤ c.toNat ∧ c.toNat ≤ 122
  · have hu := toUpper_toNat_of_lower hr
    have hne : ∀ d : Char, d.toNat < 65 → Char.toUpper c ≠ d := by
      intro d hd he
      rw [he] at hu
      omega
    simp [isPySpace, hne ' ' (by decide), hne '\t' (by decide), hne '\n' (by decide),
      hne '\x0d' (by decide), hne '\x0b' (by decide), hne '\x0c' (by decide),
      hne '\x1c' (by decide), hne '\x1d' (by decide), hne '\x1e' (by decide),
      hne '\x1f' (by decide)]
  · rw [toUpper_eq_self_of_not_lower hr]
    exact h

theorem char_ne_of_toNat_ne {a b : Char} (h : a.toNat ≠ b.toNat) : a ≠ b :=
  fun e => h (congrArg Char.toNat e)

theorem isPySpace_eq_false_of_toNat_ge {c : Char} (h : 33 ≤ c.toNat) :
    isPySpace c = false := by
  have hne : ∀ d : Char, d.toNat < 33 → c ≠ d := by
    intro d hd e
    rw [e] at h
    omega
  simp [isPySpace, hne ' ' (by decide), hne '\t' (by decide), hne '\n' (by decide),
    hne '\x0d' (by decide), hne '\x0b' (by decide), hne '\x0c' (by decide),
    hne '\x1c' (by decide), hne '\x1d' (by decide), hne '\x1e' (by decide),
    hne '\x1f' (by decide)]

theorem clean_of_toNat_ge46 {c : Char} (h : 46 ≤ c.toNat) :
    c ≠ '-' ∧ isPySpace c = false := by
  refine ⟨char_ne_of_toNat_ne ?_, isPySpace_eq_false_of_toNat_ge (by omega)⟩
  have hd : ('-').toNat = 45 := rfl
  omega

/-! ## Normalization and split lemmas for assembled keys -/

theorem dropWhile_eq_self_of_nospace {s : Str}
    (h : ∀ c ∈ s, isPySpace c = false) : s.dropWhile isPySpace = s := by
  cases s with
  | nil => rfl
  | cons c rest => simp [List.dropWhile_cons, h c (List.mem_cons_self c rest)]

theorem pyStrip_eq_self_of_nospace {s : Str}
    (h : ∀ c ∈ s, isPySpace c = false) : pyStrip s = s := by
  unfold pyStrip
  rw [dropWhile_eq_self_of_nospace h,
    dropWhile_eq_self_of_nospace (fun c hc => h c (List.mem_reverse.mp hc)),
    List.reverse_reverse]

theorem removeSpaces_eq_self_of_nospace {s : Str}
    (h : ∀ c ∈ s, isPySpace c = false) : removeSpaces s = s := by
  apply List.filter_eq_self.mpr
  intro c hc
  have h2 := h c hc
  simp only [isPySpace, Bool.or_eq_false_iff] at h2
  simp [h2.1]

theorem pyUpper_append (a b : Str) : pyUpper (a ++ b) = pyUpper a ++ pyUpper b :=
  List.map_append _ a b

theorem pyUpper_idem (s : Str) : pyUpper (pyUpper s) = pyUpper s := by
  simp only [pyUpper, List.map_map]
  apply List.map_congr_left
  intro c _
  simp [Function.comp, toUpper_idem]

theorem keyCleanStr_pyUpper {s : Str} (h : KeyCleanStr s) :
    KeyCleanStr (pyUpper s) := by
  intro c hc
  rcases List.mem_map.mp hc with ⟨c0, hc0, rfl⟩
  obtain ⟨hd, hs⟩ := h c0 hc0
  exact ⟨toUpper_ne_of_toNat_lt (by decide) hd, isPySpace_toUpper hs⟩

theorem keyCleanStr_take {s : Str} (h : KeyCleanStr s) (n : Nat) :
    KeyCleanStr (s.take n) :=
  fun c hc => h c (List.mem_of_mem_take hc)

theorem keyCleanStr_drop {s : Str} (h : KeyCleanStr s) (n : Nat) :
    KeyCleanStr (s.drop n) :=
  fun c hc => h c (List.mem_of_mem_drop hc)

theorem dash_not_mem_of_clean {s : Str} (h : KeyCleanStr s) : '-' ∉ s :=
  fun hm => (h '-' hm).1 rfl

theorem mkKey_nospace {g1 g2 g3 g4 g5 g6 g7 : Str}
    (h1 : KeyCleanStr g1) (h2 : KeyCleanStr g2) (h3 : KeyCleanStr g3)
    (h4 : KeyCleanStr g4) (h5 : KeyCleanStr g5) (h6 : KeyCleanStr g6)
    (h7 : KeyCleanStr g7) :
    ∀ c ∈ mkKey g1 g2 g3 g4 g5 g6 g7, isPySpace c = false := by
  intro c hc
  simp only [mkKey, List.mem_cons, List.mem_append] at hc
  rcases hc with rfl | rfl | rfl | rfl | rfl | hc
  · decide
  · decide
  · decide
  · decide
  · decide
  rcases hc with hc | rfl | hc
  · exact (h1 c hc).2
  · decide
  rcases hc with hc | rfl | hc
  · exact (h2 c hc).2
  · decide
  rcases hc with hc | rfl | hc
  · exact (h3 c hc).2
  · decide
  rcases hc with hc | rfl | hc
  · exact (h4 c hc).2
  · decide
  rcases hc with hc | rfl | hc
  · exact (h5 c hc).2
  · decide
  rcases hc with hc | rfl | hc
  · exact (h6 c hc).2
  · decide
  exact (h7 c hc).2

theorem pyUpper_mkKey (g1 g2 g3 g4 g5 g6 g7 : Str) :
    pyUpper (mkKey g1 g2 g3 g4 g5 g6 g7)
      = mkKey (pyUpper g1) (pyUpper g2) (pyUpper g3) (pyUpper g4)
          (pyUpper g5) (pyUpper g6) (pyUpper g7) := by
  simp only [mkKey, pyUpper, List.map_cons, List.map_append]
  rfl

theorem normalizeKey_mkKey {g1 g2 g3 g4 g5 g6 g7 : Str}
    (h1 : KeyCleanStr g1) (h2 : KeyCleanStr g2) (h3 : KeyCleanStr g3)
    (h4 : KeyCleanStr g4) (h5 : KeyCleanStr g5) (h6 : KeyCleanStr g6)
    (h7 : KeyCleanStr g7) :
    normalizeKey (mkKey g1 g2 g3 g4 g5 g6 g7)
      = mkKey (pyUpper g1) (pyUpper g2) (pyUpper g3) (pyUpper g4)
          (pyUpper g5) (pyUpper g6) (pyUpper g7) := by
  unfold normalizeKey
  rw [pyStrip_eq_self_of_nospace (mkKey_nospace h1 h2 h3 h4 h5 h6 h7)]
  rw [removeSpaces_eq_self_of_nospace, pyUpper_mkKey]
  intro c hc
  rcases List.mem_map.mp hc with ⟨c0, hc0, rfl⟩
  exact isPySpace_toUpper (mkKey_nospace h1 h2 h3 h4 h5 h6 h7 c0 hc0)

theorem splitChar_no_sep {xs : Str} (h : '-' ∉ xs) : splitChar '-' xs = [xs] := by
  induction xs with
  | nil => rfl
  | cons c rest ih =>
      obtain ⟨hne, hm⟩ := List.ne_and_not_mem_of_not_mem_cons h
      simp only [splitChar]
      rw [if_neg (fun e => hne e.symm), ih hm]

theorem splitChar_sep_append {xs : Str} (ys : Str) (h : '-' ∉ xs) :
    splitChar '-' (xs ++ '-' :: ys) = xs :: splitChar '-' ys := by
  induction xs with
  | nil => simp [splitChar]
  | cons c rest ih =>
      obtain ⟨hne, hm⟩ := List.ne_and_not_mem_of_not_mem_cons h
      simp only [List.cons_append, splitChar, List.append_eq]
      rw [if_neg (fun e => hne e.symm), ih hm]

theorem parseKey_mkKey {g1 g2 g3 g4 g5 g6 g7 : Str}
    (h1 : KeyCleanStr g1) (h2 : KeyCleanStr g2) (h3 : KeyCleanStr g3)
    (h4 : KeyCleanStr g4) (h5 : KeyCleanStr g5) (h6 : KeyCleanStr g6)
    (h7 : KeyCleanStr g7) :
    parseKey (mkKey g1 g2 g3 g4 g5 g6 g7) =
      Except.ok ⟨pyUpper (g1 ++ g2), (pyUpper g3 ++ pyUpper g4).take 6,
        pyUpper (g5 ++ g6), pyUpper g7⟩ := by
  have hd := fun {g : Str} (h : KeyCleanStr g) =>
    dash_not_mem_of_clean (keyCleanStr_pyUpper h)
  have hsplit : splitChar '-'
      (mkKey (pyUpper g1) (pyUpper g2) (pyUpper g3) (pyUpper g4) (pyUpper g5)
        (pyUpper g6) (pyUpper g7))
      = [str "TPMB", pyUpper g1, pyUpper g2, pyUpper g3, pyUpper g4, pyUpper g5,
          pyUpper g6, pyUpper g7] := by
    show splitChar '-' (str "TPMB" ++ '-' :: (pyUpper g1 ++ '-' :: (pyUpper g2 ++
      '-' :: (pyUpper g3 ++ '-' :: (pyUpper g4 ++ '-' :: (pyUpper g5 ++ '-' ::
        (pyUpper g6 ++ '-' :: pyUpper g7))))))) = _
    rw [splitChar_sep_append _ (by decide), splitChar_sep_append _ (hd h1),
      splitChar_sep_append _ (hd h2), splitChar_sep_append _ (hd h3),
      splitChar_sep_append _ (hd h4), splitChar_sep_append _ (hd h5),
      splitChar_sep_append _ (hd h6), splitChar_no_sep (hd h7)]
  have hpre : List.isPrefixOf (str "TPMB-")
      (mkKey (pyUpper g1) (pyUpper g2) (pyUpper g3) (pyUpper g4) (pyUpper g5)
        (pyUpper g6) (pyUpper g7)) = true := by
    rw [List.isPrefixOf_iff_prefix]
    exact ⟨pyUpper g1 ++ '-' :: (pyUpper g2 ++ '-' :: (pyUpper g3 ++ '-' ::
      (pyUpper g4 ++ '-' :: (pyUpper g5 ++ '-' :: (pyUpper g6 ++ '-' ::
        pyUpper g7))))), rfl⟩
  simp only [parseKey, normalizeKey_mkKey h1 h2 h3 h4 h5 h6 h7, hpre,
    Bool.not_true, hsplit]
  simp only [Bool.false_eq_true, if_false]
  rw [← pyUpper_append g1 g2, ← pyUpper_append g5 g6, pyUpper_idem, pyUpper_idem,
    pyUpper_idem]

/-! ## Cleanliness of the strings generated keys are made of -/

theorem hexChar_clean : ∀ k, k < 16 → (hexChar k ≠ '-' ∧ isPySpace (hexChar k) = false) := by
  decide

theorem keyCleanStr_bytesToHex (bs : List Nat) : KeyCleanStr (bytesToHex bs) := by
  intro c hc
  unfold bytesToHex at hc
  rcases List.mem_flatMap.mp hc with ⟨b, _, hcb⟩
  rcases List.mem_cons.mp hcb with rfl | hcb2
  · exact hexChar_clean _ (Nat.mod_lt _ (by omega))
  rcases List.mem_cons.mp hcb2 with rfl | hcb3
  · exact hexChar_clean _ (Nat.mod_lt _ (by omega))
  · cases hcb3

theorem keyCleanStr_tokenHash8 (t : Str) : KeyCleanStr (tokenHash8 t) :=
  keyCleanStr_take (keyCleanStr_bytesToHex _) 8

theorem keyCleanStr_checksum4 (secret : List Nat) (p : Str) :
    KeyCleanStr (checksum4 secret p) :=
  keyCleanStr_pyUpper (keyCleanStr_take (keyCleanStr_bytesToHex _) 4)

theorem digitChar_toNat (n : Nat) : (digitChar n).toNat = 48 + n % 10 :=
  char_toNat_ofNat (by have := Nat.mod_lt n (show 0 < 10 by omega); omega)

theorem digitChar_clean (n : Nat) :
    digitChar n ≠ '-' ∧ isPySpace (digitChar n) = false :=
  clean_of_toNat_ge46 (by rw [digitChar_toNat]; omega)

theorem keyCleanStr_strftime_pad (d : Date) :
    KeyCleanStr (strftimeYYMMDD d ++ str "00") := by
  intro c hc
  rcases List.mem_append.mp hc with hc1 | hc2
  · simp only [strftimeYYMMDD, two2, List.mem_append, List.mem_cons,
      List.not_mem_nil, or_false] at hc1
    rcases hc1 with ((rfl | rfl) | rfl | rfl) | rfl | rfl <;> exact digitChar_clean _
  · have h0 : ∀ x ∈ str "00", x = '0' := by decide
    rw [h0 c hc2]
    exact ⟨by decide, by decide⟩

theorem tokenHash8_take_join (t : Str) :
    (tokenHash8 t).take 4 ++ ((tokenHash8 t).drop 4).take 4 = tokenHash8 t := by
  rw [← List.take_add]
  show (tokenHash8 t).take 8 = tokenHash8 t
  unfold tokenHash8
  rw [List.take_take]
  norm_num

theorem strftime_length (d : Date) : (strftimeYYMMDD d).length = 6 := rfl

theorem strftime_pad_length (d : Date) :
    (strftimeYYMMDD d ++ str "00").length = 8 := rfl

theorem exgroups_join (d : Date) :
    (strftimeYYMMDD d ++ str "00").take 4
      ++ ((strftimeYYMMDD d ++ str "00").drop 4).take 4
      = strftimeYYMMDD d ++ str "00" := by
  rw [← List.take_add]
  exact List.take_of_length_le (by rw [strftime_pad_length])

theorem pyUpper_strftime_pad (d : Date) :
    pyUpper (strftimeYYMMDD d ++ str "00") = strftimeYYMMDD d ++ str "00" := by
  have hid : ∀ c ∈ strftimeYYMMDD d ++ str "00", Char.toUpper c = c := by
    intro c hc
    rcases List.mem_append.mp hc with hc1 | hc2
    · simp only [strftimeYYMMDD, two2, List.mem_append, List.mem_cons,
        List.not_mem_nil, or_false] at hc1
      rcases hc1 with ((rfl | rfl) | rfl | rfl) | rfl | rfl <;>
        (apply toUpper_eq_self_of_not_lower; rw [digitChar_toNat]; omega)
    · have h0 : ∀ x ∈ str "00", x = '0' := by decide
      rw [h0 c hc2]
      decide
  calc pyUpper (strftimeYYMMDD d ++ str "00")
      = (strftimeYYMMDD d ++ str "00").map id := List.map_congr_left hid
    _ = strftimeYYMMDD d ++ str "00" := List.map_id _

theorem expiry_display (d : Date) :
    (pyUpper ((strftimeYYMMDD d ++ str "00").take 4)
      ++ pyUpper (((strftimeYYMMDD d ++ str "00").drop 4).take 4)).take 6
      = strftimeYYMMDD d := by
  rw [← pyUpper_append, exgroups_join, pyUpper_strftime_pad, ← strftime_length d,
    List.take_left]

/-- `generate_key`'s result, seen as the assembly of its seven groups. -/
theorem generateKey_eq_mkKey (secret : List Nat) (today : Date) (botToken : Str)
    (daysValid : Nat) (hwid : Option Str) :
    generateKey secret today botToken daysValid hwid =
      mkKey ((tokenHash8 botToken).take 4) (((tokenHash8 botToken).drop 4).take 4)
        ((strftimeYYMMDD (addDays today daysValid) ++ str "00").take 4)
        (((strftimeYYMMDD (addDays today daysValid) ++ str "00").drop 4).take 4)
        ((pyUpper ((pyOrGeneric hwid).take 8)).take 4)
        (((pyUpper ((pyOrGeneric hwid).take 8)).drop 4).take 4)
        (checksum4 secret (tokenHash8 botToken ++ '.' ::
          strftimeYYMMDD (addDays today daysValid) ++ '.' ::
          pyUpper ((pyOrGeneric hwid).take 8))) := by
  have h : str "TPMB-" = 'T' :: 'P' :: 'M' :: 'B' :: '-' :: [] := rfl
  simp only [generateKey, mkKey, h, List.cons_append, List.nil_append,
    List.append_assoc]

/-- Counterexample to C6: the identity hash is truncated to 8 hex
characters, and the two distinct identities `"id35010"` and `"id1233199"`
share the truncated SHA-256 prefix `62112265` (all digits, so the
lowercase/uppercase checksum divergence vanishes too): a key generated
for the first identity validates as `valid = true` against the second,
instead of failing with `"checksum/token mismatch"`. -/
theorem identity_binding_collision_counterexample :
    validateKey defaultSecret ⟨⟨2025, 1, 1⟩, 43200⟩
      (generateKey defaultSecret ⟨2025, 1, 1⟩ (str "id35010") 30 none)
      (str "id1233199") none
      = Except.ok ⟨true, none, str "250131"⟩
    ∧ str "id35010" ≠ str "id1233199" :=
  ⟨rfl, by decide⟩

/-- C6 amended: identity binding holds whenever the truncated
(8-hex-character, case-folded) identity hashes of the two identities
differ — rather than for every pair of distinct identities — and the
optional hardware id survives normalization (no hyphen or whitespace in
its uppercased first 8 characters): a key generated for identity `A` and
validated against such an identity `B` is rejected with
`"checksum/token mismatch"`. -/
theorem identity_binding_of_hash_ne (secret : List Nat) (today : Date)
    (now : Instant) (tokenA tokenB : Str) (daysValid : Nat) (hwid : Option Str)
    (hhw : KeyCleanStr (pyUpper ((pyOrGeneric hwid).take 8)))
    (hne : pyUpper (tokenHash8 tokenA) ≠ pyUpper (tokenHash8 tokenB)) :
    validateKey secret now (generateKey secret today tokenA daysValid hwid)
      tokenB hwid
      = Except.ok ⟨false, some (str "checksum/token mismatch"),
          strftimeYYMMDD (addDays today daysValid)⟩ := by
  rw [generateKey_eq_mkKey]
  unfold validateKey
  rw [parseKey_mkKey
    (keyCleanStr_take (keyCleanStr_tokenHash8 tokenA) 4)
    (keyCleanStr_take (keyCleanStr_drop (keyCleanStr_tokenHash8 tokenA) 4) 4)
    (keyCleanStr_take (keyCleanStr_strftime_pad (addDays today daysValid)) 4)
    (keyCleanStr_take (keyCleanStr_drop (keyCleanStr_strftime_pad _) 4) 4)
    (keyCleanStr_take hhw 4)
    (keyCleanStr_take (keyCleanStr_drop hhw 4) 4)
    (keyCleanStr_checksum4 secret _)]
  rw [tokenHash8_take_join, expiry_display]
  have htokne : (pyUpper (tokenHash8 tokenB) == pyUpper (tokenHash8 tokenA)) = false :=
    beq_eq_false_iff_ne.mpr fun e => hne e.symm
  simp [validateData, htokne]

theorem identity_binding_witness :
    validateKey defaultSecret ⟨⟨2025, 1, 1⟩, 0⟩
      (generateKey defaultSecret ⟨2025, 1, 1⟩ (str "tok49") 1 none)
      (str "abc123token") none
      = Except.ok ⟨false, some (str "checksum/token mismatch"), str "250102"⟩ := by
  have h := identity_binding_of_hash_ne defaultSecret ⟨2025, 1, 1⟩
    ⟨⟨2025, 1, 1⟩, 0⟩ (str "tok49") (str "abc123token") 1 none
    (by decide) (by decide)
  exact h

/-- Counterexample to C3: changing a single character of a generated key
— the second `'0'` padding character of the expiry field (position 23,
inside the fourth data group) to `'7'` — leaves validation completely
unaffected: the tampered key still validates with `valid = true`, because
`parse_key` drops the two padding characters (`expiry = (g3+g4)[:6]`).
(The identity `"tok49"` has the all-digit hash prefix `96946073`, so its
generated key is one that passes validation at all.) -/
theorem tamper_pad_char_counterexample :
    (generateKey defaultSecret ⟨2025, 1, 1⟩ (str "tok49") 30 none).getD 23 ' ' = '0'
    ∧ ('7' : Char) ≠ '0'
    ∧ setCharAt (generateKey defaultSecret ⟨2025, 1, 1⟩ (str "tok49") 30 none) 23 '7'
        = str "TPMB-9694-6073-2501-3107-GENE-RIC-0987"
    ∧ validateKey defaultSecret ⟨⟨2025, 1, 1⟩, 43200⟩
        (setCharAt (generateKey defaultSecret ⟨2025, 1, 1⟩ (str "tok49") 30 none)
          23 '7')
        (str "tok49") none
      = Except.ok ⟨true, none, str "250131"⟩ :=
  ⟨rfl, by decide, rfl, rfl⟩

/-- C3 amended: for a key assembled from hyphen-free, whitespace-free
groups that passes the integrity checks for the validated identity
(`htok`, `hcs`), tamper detection holds only for the authenticated
positions: (a) any change of the identity-hash groups that alters their
uppercased content, and (b) any change of the checksum group that alters
its uppercased content, is rejected with `"checksum/token mismatch"`;
(c) any change of the expiry groups that alters the first six characters
of their uppercased concatenation is likewise rejected unless the
recomputed 4-hex-character HMAC checksum collides with the stored one;
but (d) changes confined to the hardware groups or to the expiry padding
(the part of groups 3-4 beyond the first six characters) leave the
verdict entirely unchanged — in particular they keep `valid = true`,
contrary to the original claim. -/
theorem tamper_detection_amended (secret : List Nat) (now : Instant)
    (token : Str) (hwid : Option Str) (g1 g2 g3 g4 g5 g6 g7 : Str)
    (h1 : KeyCleanStr g1) (h2 : KeyCleanStr g2) (h3 : KeyCleanStr g3)
    (h4 : KeyCleanStr g4) (h5 : KeyCleanStr g5) (h6 : KeyCleanStr g6)
    (h7 : KeyCleanStr g7)
    (htok : pyUpper (g1 ++ g2) = pyUpper (tokenHash8 token))
    (hcs : pyUpper g7 = checksum4 secret (pyUpper (tokenHash8 token) ++ '.' ::
      (pyUpper g3 ++ pyUpper g4).take 6 ++ '.' ::
      pyUpper ((pyOrGeneric hwid).take 8))) :
    (∀ g1' g2', KeyCleanStr g1' → KeyCleanStr g2' →
      pyUpper (g1' ++ g2') ≠ pyUpper (g1 ++ g2) →
      validateKey secret now (mkKey g1' g2' g3 g4 g5 g6 g7) token hwid
        = Except.ok ⟨false, some (str "checksum/token mismatch"),
            (pyUpper g3 ++ pyUpper g4).take 6⟩)
    ∧ (∀ g7', KeyCleanStr g7' → pyUpper g7' ≠ pyUpper g7 →
      validateKey secret now (mkKey g1 g2 g3 g4 g5 g6 g7') token hwid
        = Except.ok ⟨false, some (str "checksum/token mismatch"),
            (pyUpper g3 ++ pyUpper g4).take 6⟩)
    ∧ (∀ g3' g4', KeyCleanStr g3' → KeyCleanStr g4' →
      checksum4 secret (pyUpper (tokenHash8 token) ++ '.' ::
          (pyUpper g3' ++ pyUpper g4').take 6 ++ '.' ::
          pyUpper ((pyOrGeneric hwid).take 8)) ≠ pyUpper g7 →
      validateKey secret now (mkKey g1 g2 g3' g4' g5 g6 g7) token hwid
        = Except.ok ⟨false, some (str "checksum/token mismatch"),
            (pyUpper g3' ++ pyUpper g4').take 6⟩)
    ∧ (∀ g4' g5' g6', KeyCleanStr g4' → KeyCleanStr g5' → KeyCleanStr g6' →
      (pyUpper g3 ++ pyUpper g4').take 6 = (pyUpper g3 ++ pyUpper g4).take 6 →
      validateKey secret now (mkKey g1 g2 g3 g4' g5' g6' g7) token hwid
        = validateKey secret now (mkKey g1 g2 g3 g4 g5 g6 g7) token hwid) := by
  refine ⟨?_, ?_, ?_, ?_⟩
  · intro g1' g2' hg1 hg2 hne
    unfold validateKey
    rw [parseKey_mkKey hg1 hg2 h3 h4 h5 h6 h7]
    have ht : (pyUpper (tokenHash8 token) == pyUpper (g1' ++ g2')) = false :=
      beq_eq_false_iff_ne.mpr fun e => hne (e.symm.trans htok.symm)
    simp [validateData, ht]
  · intro g7' hg7 hne
    unfold validateKey
    rw [parseKey_mkKey h1 h2 h3 h4 h5 h6 hg7]
    have hcb : (pyUpper g7' == checksum4 secret
        (pyUpper (tokenHash8 token) ++ '.' :: (pyUpper g3 ++ pyUpper g4).take 6
          ++ '.' :: pyUpper ((pyOrGeneric hwid).take 8))) = false := by
      rw [← hcs]
      exact beq_eq_false_iff_ne.mpr hne
    simp only [List.append_assoc, List.cons_append] at hcb
    simp [validateData, hcb]
  · intro g3' g4' hg3 hg4 hnc
    unfold validateKey
    rw [parseKey_mkKey h1 h2 hg3 hg4 h5 h6 h7]
    have hcb : (pyUpper g7 == checksum4 secret
        (pyUpper (tokenHash8 token) ++ '.' :: (pyUpper g3' ++ pyUpper g4').take 6
          ++ '.' :: pyUpper ((pyOrGeneric hwid).take 8))) = false :=
      beq_eq_false_iff_ne.mpr fun e => hnc e.symm
    simp only [List.append_assoc, List.cons_append] at hcb
    simp [validateData, hcb]
  · intro g4' g5' g6' hg4 hg5 hg6 hexp
    unfold validateKey
    rw [parseKey_mkKey h1 h2 h3 hg4 hg5 hg6 h7,
      parseKey_mkKey h1 h2 h3 h4 h5 h6 h7, hexp]
    simp only [validateData]

theorem tamper_detection_amended_witness :
    validateKey defaultSecret ⟨⟨2025, 1, 1⟩, 43200⟩
      (mkKey (str "9694") (str "6073") (str "2501") (str "3100") (str "GENE")
        (str "RIC") (str "1987")) (str "tok49") none
      = Except.ok ⟨false, some (str "checksum/token mismatch"), str "250131"⟩
    ∧ validateKey defaultSecret ⟨⟨2025, 1, 1⟩, 43200⟩
        (mkKey (str "9694") (str "6073") (str "2501") (str "3107") (str "GENE")
          (str "RIC") (str "0987")) (str "tok49") none
      = validateKey defaultSecret ⟨⟨2025, 1, 1⟩, 43200⟩
        (mkKey (str "9694") (str "6073") (str "2501") (str "3100") (str "GENE")
          (str "RIC") (str "0987")) (str "tok49") none := by
  have h := tamper_detection_amended defaultSecret ⟨⟨2025, 1, 1⟩, 43200⟩
    (str "tok49") none (str "9694") (str "6073") (str "2501") (str "3100")
    (str "GENE") (str "RIC") (str "0987")
    (by decide) (by decide) (by decide) (by decide) (by decide) (by decide)
    (by decide) (by decide) (by decide)
  exact ⟨h.2.1 (str "1987") (by decide) (by decide),
    h.2.2.2 (str "3107") (str "GENE") (str "RIC") (by decide) (by decide)
      (by decide) (by decide)⟩

/-! ## Registry lemmas and claim theorems C8, C9, C10 -/

theorem containsKey_append (l1 l2 : List (Str × BotRecord)) (id : Str) :
    containsKey (l1 ++ l2) id = (containsKey l1 id || containsKey l2 id) := by
  simp [containsKey, List.any_append]

theorem containsKey_singleton_self (r : BotRecord) (id : Str) :
    containsKey [(id, r)] id = true := by
  simp [containsKey]

theorem containsKey_cons_self (p : Str × BotRecord)
    (rest : List (Str × BotRecord)) : containsKey (p :: rest) p.1 = true := by
  simp [containsKey]

theorem containsKey_erase_ne (bots : List (Str × BotRecord)) (id a : Str)
    (h : a ≠ id) : containsKey (eraseKey bots id) a = containsKey bots a := by
  induction bots with
  | nil => rfl
  | cons p rest ih =>
      by_cases hp : p.1 = id
      · have hna : (p.1 == a) = false := by
          simp only [beq_eq_false_iff_ne, ne_eq, hp]
          exact fun e => h e.symm
        rw [show eraseKey (p :: rest) id = rest from by simp [eraseKey, hp]]
        show containsKey rest a = containsKey (p :: rest) a
        simp only [containsKey, List.any_cons, hna, Bool.false_or]
      · rw [show eraseKey (p :: rest) id = p :: eraseKey rest id from by
          simp [eraseKey, hp]]
        show containsKey (p :: eraseKey rest id) a = containsKey (p :: rest) a
        simp only [containsKey, List.any_cons]
        rw [show (eraseKey rest id).any (fun q => q.1 == a) = containsKey (eraseKey rest id) a
          from rfl, ih]
        rfl

theorem setActive_activeOk (st : Registry) (id : Str) (h : activeOk st = true) :
    activeOk (setActiveBot st id).state = true := by
  by_cases hc : containsKey st.bots id = true
  · simp [setActiveBot, hc, activeOk]
  · have hc2 : containsKey st.bots id = false := by simpa using hc
    simp [setActiveBot, hc2, h]

theorem addBot_activeOk (st : Registry) (id name tok now : Str)
    (h : activeOk st = true) : activeOk (addBot st id name tok now).state = true := by
  by_cases hc : containsKey st.bots id = true
  · simp [addBot, hc, h]
  · have hc2 : containsKey st.bots id = false := by simpa using hc
    by_cases hf : pyFalsyOpt st.activeBot = true
    · simp [addBot, hc2, hf, activeOk, containsKey_append, containsKey_singleton_self]
    · cases ha : st.activeBot with
      | none => simp [pyFalsyOpt, ha] at hf
      | some a =>
          have hf2 : pyFalsyOpt (some a) = false := by
            rw [ha] at hf
            simpa using hf
          have hca : containsKey st.bots a = true := by
            simpa [activeOk, ha] using h
          simp [addBot, hc2, ha, hf2, activeOk, containsKey_append, hca]

theorem removeBot_activeOk (st : Registry) (id : Str) (h : activeOk st = true) :
    activeOk (removeBot st id).state = true := by
  by_cases hc : containsKey st.bots id = true
  · cases ha : st.activeBot with
    | none =>
        have hne : (st.activeBot == some id) = false := by rw [ha]; rfl
        simp [removeBot, hc, hne, ha, activeOk]
    | some a =>
        by_cases hai : a = id
        · subst hai
          have heq : (st.activeBot == some a) = true := by rw [ha]; simp
          simp only [removeBot, hc, if_true, heq]
          cases hb : eraseKey st.bots a with
          | nil => simp [activeOk]
          | cons p rest => simp [activeOk, containsKey_cons_self]
        · have hne : (st.activeBot == some id) = false := by
            rw [ha]
            simp [hai]
          have hca : containsKey st.bots a = true := by
            simpa [activeOk, ha] using h
          simp [removeBot, hc, hne, ha, activeOk, hai,
            containsKey_erase_ne st.bots id a hai, hca]
  · have hc2 : containsKey st.bots id = false := by simpa using hc
    simp [removeBot, hc2, h]

theorem applyOp_activeOk (st : Registry) (op : RegOp) (h : activeOk st = true) :
    activeOk (applyOp st op) = true := by
  cases op with
  | add id name tok now => exact addBot_activeOk st id name tok now h
  | remove id => exact removeBot_activeOk st id h
  | setActive id => exact setActive_activeOk st id h

/-- C8: starting from the default empty registry, after any finite
sequence of `add_bot`/`remove_bot`/`set_active_bot` calls the registry's
single `active_bot` pointer (so at most one tenant is ever marked
active) is either null or names an id present in the `bots` map. -/
theorem registry_active_invariant (ops : List RegOp) :
    activeOk (runOps ops) = true := by
  have aux : ∀ (l : List RegOp) (st : Registry), activeOk st = true →
      activeOk (l.foldl applyOp st) = true := by
    intro l
    induction l with
    | nil => exact fun st h => h
    | cons op rest ih => exact fun st h => ih _ (applyOp_activeOk st op h)
  exact aux ops defaultRegistry rfl

theorem map_fst_eraseKey (bots : List (Str × BotRecord)) (id : Str) :
    (eraseKey bots id).map Prod.fst = keysErase (bots.map Prod.fst) id := by
  induction bots with
  | nil => rfl
  | cons p rest ih => by_cases hp : p.1 = id <;> simp [eraseKey, keysErase, hp, ih]

/-- C9: `remove_bot` returns false and does nothing when the id is
absent; when present it returns true, deletes exactly that record, and
if the removed tenant was active, points `active_bot` at the first
remaining tenant in insertion order (null when none remain), leaving the
pointer alone otherwise. -/
theorem removeBot_semantics (st : Registry) (id : Str) :
    (containsKey st.bots id = false → removeBot st id = ⟨false, st, false⟩)
    ∧ (containsKey st.bots id = true →
        (removeBot st id).result = true
        ∧ (removeBot st id).state.bots = eraseKey st.bots id
        ∧ listBots (removeBot st id).state = keysErase (listBots st) id
        ∧ (st.activeBot = some id →
            (removeBot st id).state.activeBot = (listBots (removeBot st id).state).head?)
        ∧ (st.activeBot ≠ some id →
            (removeBot st id).state.activeBot = st.activeBot)) := by
  constructor
  · intro h
    simp [removeBot, h]
  · intro h
    refine ⟨by simp [removeBot, h], by simp [removeBot, h], ?_, ?_, ?_⟩
    · simp [removeBot, h, listBots, map_fst_eraseKey]
    · intro ha
      simp only [removeBot, h, if_true, ha, listBots]
      cases hb : eraseKey st.bots id with
      | nil => simp [hb]
      | cons p rest => simp [hb]
    · intro ha
      have hne : (st.activeBot == some id) = false := by
        simpa using ha
      simp [removeBot, h, hne]

theorem removeBot_semantics_witness :
    (removeBot regW (str "a")).result = true
    ∧ (removeBot regW (str "a")).state.activeBot
        = (listBots (removeBot regW (str "a")).state).head?
    ∧ removeBot regW (str "zz") = ⟨false, regW, false⟩ := by
  have h1 := (removeBot_semantics regW (str "a")).2 (by decide)
  have h2 := (removeBot_semantics regW (str "zz")).1 (by decide)
  exact ⟨h1.1, h1.2.2.2.1 (by decide), h2⟩

/-- C10: each mutator, called on a conflicting id (`add_bot` on an
existing id; `remove_bot`, `set_active_bot`, `update_bot` on a missing
id), returns false, leaves the in-memory registry untouched, and never
calls `_save`, so the backing file is not rewritten. -/
theorem mutators_atomic_on_failure (st : Registry) (id name tok now : Str)
    (f : BotRecord → BotRecord) :
    (containsKey st.bots id = true → addBot st id name tok now = ⟨false, st, false⟩)
    ∧ (containsKey st.bots id = false → removeBot st id = ⟨false, st, false⟩)
    ∧ (containsKey st.bots id = false → setActiveBot st id = ⟨false, st, false⟩)
    ∧ (containsKey st.bots id = false → updateBot st id f = ⟨false, st, false⟩) := by
  refine ⟨fun h => ?_, fun h => ?_, fun h => ?_, fun h => ?_⟩ <;>
    simp [addBot, removeBot, setActiveBot, updateBot, h]

/-! ## Licensing claim theorems -/

/-- C1 (code bug): the generate/validate round trip fails on the code.
`generate_key` signs the payload built from the lowercase hex token hash
(line 50 omits `.upper()`), while `validate_key` recomputes the checksum
over the uppercased hash (line 79), so a freshly generated key for
identity `"abc123token"` (whose hash prefix `ee7fdbd5` contains letters)
is rejected with `"checksum/token mismatch"` even though it is validated
against the same identity, the same (absent) hardware id, and at a UTC
instant before the encoded expiry date. -/
theorem roundtrip_generated_key_rejected :
    validateKey defaultSecret ⟨⟨2025, 1, 1⟩, 0⟩
      (generateKey defaultSecret ⟨2025, 1, 1⟩ (str "abc123token") 30 none)
      (str "abc123token") none
      = Except.ok ⟨false, some (str "checksum/token mismatch"), str "250131"⟩
    ∧ dateLt ⟨2025, 1, 1⟩ ⟨2025, 1, 31⟩ = true :=
  ⟨rfl, rfl⟩

/-- C7 (code bug): a key generated with no hardware id, validated with no
hardware id (both sides defaulting to `"GENERIC"`), is still rejected with
`"checksum/token mismatch"`, because of the same lowercase/uppercase
token-hash divergence between `generate_key` and `validate_key`. -/
theorem generic_hw_roundtrip_rejected :
    validateKey defaultSecret ⟨⟨2025, 1, 2⟩, 3600⟩
      (generateKey defaultSecret ⟨2025, 1, 1⟩ (str "abc123token") 7 none)
      (str "abc123token") none
      = Except.ok ⟨false, some (str "checksum/token mismatch"), str "250108"⟩ :=
  rfl

/-- Counterexample to C4: `validate_key` calls `parse_key` outside any
exception handler, so on a malformed key the `ValueError` escapes to the
caller instead of a structured `valid = false` verdict. -/
theorem validateKey_raises_on_malformed :
    validateKey defaultSecret ⟨⟨2025, 1, 1⟩, 0⟩ (str "not-a-key")
      (str "abc123token") none = Except.error (str "Invalid prefix") :=
  rfl

theorem parseKey_ok_shape (key : Str) :
    exceptIsOk (parseKey key) = true ↔
      (List.isPrefixOf (str "TPMB-") (normalizeKey key) = true
        ∧ (splitChar '-' (normalizeKey key)).length = 8) := by
  unfold parseKey
  by_cases hp : List.isPrefixOf (str "TPMB-") (normalizeKey key) = true
  · simp only [hp, Bool.not_true, Bool.false_eq_true, if_false, true_and]
    rcases hsl : splitChar '-' (normalizeKey key) with
        _ | ⟨a1, _ | ⟨a2, _ | ⟨a3, _ | ⟨a4, _ | ⟨a5, _ | ⟨a6, _ | ⟨a7, _ | ⟨a8,
          _ | ⟨a9, rest⟩⟩⟩⟩⟩⟩⟩⟩⟩ <;>
      simp [exceptIsOk]
  · have hp2 : List.isPrefixOf (str "TPMB-") (normalizeKey key) = false :=
      Bool.eq_false_iff.mpr hp
    simp [hp2, exceptIsOk]

/-- C4 amended: `validate_key` returns a structured verdict exactly for
inputs whose normalization starts with `TPMB-` and splits into 8
hyphen-separated groups; on every other input the parse `ValueError`
propagates out of `validate_key` to the caller. -/
theorem validateKey_ok_iff_wellformed (secret : List Nat) (now : Instant)
    (key botToken : Str) (hwid : Option Str) :
    exceptIsOk (validateKey secret now key botToken hwid) = true ↔
      (List.isPrefixOf (str "TPMB-") (normalizeKey key) = true
        ∧ (splitChar '-' (normalizeKey key)).length = 8) := by
  rw [← parseKey_ok_shape]
  unfold validateKey
  cases parseKey key <;> simp [exceptIsOk]

/-- Counterexample to C5: `parse_key` never checks group lengths, so a
key whose data groups are not 4 characters long still decodes
successfully. -/
theorem parseKey_accepts_short_groups :
    parseKey (str "TPMB-A-B-C-D-E-F-G")
      = Except.ok ⟨str "AB", str "CD", str "EF", str "G"⟩
    ∧ (str "A").length ≠ 4 :=
  ⟨rfl, by decide⟩

/-- C5 amended: decoding succeeds iff, after normalization, the string
starts with the fixed prefix `TPMB-` and has exactly 8 hyphen-separated
segments; the lengths of the 7 data segments are not checked. -/
theorem parseKey_wellformed_iff (key : Str) :
    (∃ d, parseKey key = Except.ok d) ↔
      (List.isPrefixOf (str "TPMB-") (normalizeKey key) = true
        ∧ (splitChar '-' (normalizeKey key)).length = 8) := by
  rw [← parseKey_ok_shape]
  constructor
  · rintro ⟨d, hd⟩
    simp [exceptIsOk, hd]
  · intro h
    cases hk : parseKey key with
    | ok d => exact ⟨d, rfl⟩
    | error e => rw [hk] at h; simp [exceptIsOk] at h

/-- Counterexample to C2: a key whose checksum and identity hash match,
with encoded expiry `250101`, validated at noon of 2025-01-01: the parsed
expiry date is not strictly before the current UTC date, yet the code
reports `"expired"`, because `validate_key` compares the full `utcnow()`
instant against midnight of the expiry date. -/
theorem expiry_boundary_counterexample :
    validateKey defaultSecret ⟨⟨2025, 1, 1⟩, 43200⟩
      (str "TPMB-EE7F-DBD5-2501-0100-GENE-RIC0-F6D2") (str "abc123token") none
      = Except.ok ⟨false, some (str "expired"), str "250101"⟩
    ∧ parseExpiry (str "250101") = some ⟨2025, 1, 1⟩
    ∧ dateLt ⟨2025, 1, 1⟩ ⟨2025, 1, 1⟩ = false :=
  ⟨rfl, rfl, rfl⟩

/-- C2 amended: for a key whose checksum and identity hash match, the
verdict is `"expired"` (with `valid = false`) precisely when the encoded
expiry parses and the current UTC instant is strictly after midnight at
the start of the parsed expiry date — not when the expiry date is
strictly before the current UTC date.  In particular a key generated
with `days_valid = 1` (checksum matching) is accepted throughout the
generation day and only at exactly midnight of the next day. -/
theorem expired_iff_after_midnight (secret : List Nat) (now : Instant)
    (data : ParsedKey) (botToken : Str) (hwid : Option Str)
    (hcs : data.csum = checksum4 secret
      (pyUpper (tokenHash8 botToken) ++ '.' :: data.expiry ++ '.' ::
        pyUpper ((pyOrGeneric hwid).take 8)))
    (htk : pyUpper (tokenHash8 botToken) = data.tokenHash) :
    ((validateData secret now data botToken hwid).reason = some (str "expired")
        ∧ (validateData secret now data botToken hwid).valid = false) ↔
      (∃ d, parseExpiry data.expiry = some d ∧ instantGt now ⟨d, 0⟩ = true) := by
  have hb : (data.csum == checksum4 secret
      (pyUpper (tokenHash8 botToken) ++ '.' :: data.expiry ++ '.' ::
        pyUpper ((pyOrGeneric hwid).take 8))
      && pyUpper (tokenHash8 botToken) == data.tokenHash) = true := by
    rw [hcs, htk]
    simp
  simp only [validateData, hb, if_true]
  cases hpe : parseExpiry data.expiry with
  | none =>
      have hne : str "invalid expiry" ≠ str "expired" := by decide
      simp [hpe, hne]
  | some d =>
      by_cases hgt : instantGt now ⟨d, 0⟩ = true
      · simp [hpe, hgt]
      · have hgt2 : instantGt now ⟨d, 0⟩ = false := by simpa using hgt
        simp [hpe, hgt2]

theorem expired_iff_after_midnight_witness :
    (validateData defaultSecret ⟨⟨2025, 1, 2⟩, 0⟩
        ⟨str "EE7FDBD5", str "250101", str "GENERIC0", str "F6D2"⟩
        (str "abc123token") none).reason = some (str "expired")
    ∧ (validateData defaultSecret ⟨⟨2025, 1, 2⟩, 0⟩
        ⟨str "EE7FDBD5", str "250101", str "GENERIC0", str "F6D2"⟩
        (str "abc123token") none).valid = false := by
  have h := expired_iff_after_midnight defaultSecret ⟨⟨2025, 1, 2⟩, 0⟩
    ⟨str "EE7FDBD5", str "250101", str "GENERIC0", str "F6D2"⟩
    (str "abc123token") none (by decide) (by decide)
  exact h.mpr ⟨⟨2025, 1, 1⟩, by decide, by decide⟩

theorem mutators_atomic_on_failure_witness :
    addBot regW (str "a") (str "N") (str "") (str "t") = ⟨false, regW, false⟩
    ∧ removeBot regW (str "zz") = ⟨false, regW, false⟩
    ∧ setActiveBot regW (str "zz") = ⟨false, regW, false⟩
    ∧ updateBot regW (str "zz") (fun r => r) = ⟨false, regW, false⟩ := by
  have h1 := mutators_atomic_on_failure regW (str "a") (str "N") (str "") (str "t")
    (fun r => r)
  have h2 := mutators_atomic_on_failure regW (str "zz") (str "N") (str "") (str "t")
    (fun r => r)
  exact ⟨h1.1 (by decide), h2.2.1 (by decide), h2.2.2.1 (by decide),
    h2.2.2.2 (by decide)⟩
